import Mathlib

/-!
Verification development for the cosmic-dust Monte Carlo simulator
(`simulation.py`).  The Python source is shallowly embedded: machine floats
become real numbers, the numpy random generator becomes an explicit pair of
draw streams with counters, and every sampler threads that state exactly as
the Python methods thread `self.rng`.
-/

noncomputable section

/-- 3-component vector over the reals (numpy 3-arrays in the source). -/
structure Vec3 where
  x : ℝ
  y : ℝ
  z : ℝ

def Vec3.add (u v : Vec3) : Vec3 := ⟨u.x + v.x, u.y + v.y, u.z + v.z⟩

def Vec3.sub (u v : Vec3) : Vec3 := ⟨u.x - v.x, u.y - v.y, u.z - v.z⟩

def Vec3.neg (u : Vec3) : Vec3 := ⟨-u.x, -u.y, -u.z⟩

/-- Scalar multiplication, `v * c` in numpy. -/
def Vec3.smul (v : Vec3) (c : ℝ) : Vec3 := ⟨v.x * c, v.y * c, v.z * c⟩

/-- Componentwise division by a scalar, `v / c` in numpy. -/
def Vec3.div (v : Vec3) (c : ℝ) : Vec3 := ⟨v.x / c, v.y / c, v.z / c⟩

/-- `np.dot` on 3-vectors. -/
def dot3 (u v : Vec3) : ℝ := u.x * v.x + u.y * v.y + u.z * v.z

/-- `np.linalg.norm` on 3-vectors. -/
def norm3 (v : Vec3) : ℝ := Real.sqrt (v.x ^ 2 + v.y ^ 2 + v.z ^ 2)

/-- Cross product; proof-side helper for the Rodrigues matrix algebra
(the source builds the equivalent skew matrix `K`). -/
def cross3 (u v : Vec3) : Vec3 :=
  ⟨u.y * v.z - u.z * v.y, u.z * v.x - u.x * v.z, u.x * v.y - u.y * v.x⟩

/-- 3x3 real matrix, row-major fields. -/
structure Mat3 where
  m00 : ℝ
  m01 : ℝ
  m02 : ℝ
  m10 : ℝ
  m11 : ℝ
  m12 : ℝ
  m20 : ℝ
  m21 : ℝ
  m22 : ℝ

def eye3 : Mat3 := ⟨1, 0, 0, 0, 1, 0, 0, 0, 1⟩

def madd (a b : Mat3) : Mat3 :=
  ⟨a.m00 + b.m00, a.m01 + b.m01, a.m02 + b.m02,
   a.m10 + b.m10, a.m11 + b.m11, a.m12 + b.m12,
   a.m20 + b.m20, a.m21 + b.m21, a.m22 + b.m22⟩

def msmul (c : ℝ) (a : Mat3) : Mat3 :=
  ⟨c * a.m00, c * a.m01, c * a.m02,
   c * a.m10, c * a.m11, c * a.m12,
   c * a.m20, c * a.m21, c * a.m22⟩

def mmul (a b : Mat3) : Mat3 :=
  ⟨a.m00 * b.m00 + a.m01 * b.m10 + a.m02 * b.m20,
   a.m00 * b.m01 + a.m01 * b.m11 + a.m02 * b.m21,
   a.m00 * b.m02 + a.m01 * b.m12 + a.m02 * b.m22,
   a.m10 * b.m00 + a.m11 * b.m10 + a.m12 * b.m20,
   a.m10 * b.m01 + a.m11 * b.m11 + a.m12 * b.m21,
   a.m10 * b.m02 + a.m11 * b.m12 + a.m12 * b.m22,
   a.m20 * b.m00 + a.m21 * b.m10 + a.m22 * b.m20,
   a.m20 * b.m01 + a.m21 * b.m11 + a.m22 * b.m21,
   a.m20 * b.m02 + a.m21 * b.m12 + a.m22 * b.m22⟩

def mvec (a : Mat3) (v : Vec3) : Vec3 :=
  ⟨a.m00 * v.x + a.m01 * v.y + a.m02 * v.z,
   a.m10 * v.x + a.m11 * v.y + a.m12 * v.z,
   a.m20 * v.x + a.m21 * v.y + a.m22 * v.z⟩

/-- `np.arctan2 y x`, modelled as the principal argument of the complex
number `x + y*I` (range `(-pi, pi]`, matching numpy away from signed
zeros, which do not exist in the reals). -/
def atan2 (y x : ℝ) : ℝ := Complex.arg ⟨x, y⟩

/-- `np.clip x lo hi`. -/
def clip (v lo hi : ℝ) : ℝ := min (max v lo) hi

/-- Source families, `SOURCE_FRACTIONS` keys. -/
inductive SourceFamily where
  | asteroidal
  | cometary
  | interstellar
deriving DecidableEq, Repr

/-- Materials, `MATERIAL_DENSITIES` keys. -/
inductive Material where
  | silicate
  | carbonaceous
  | iron_nickel
deriving DecidableEq, Repr

-- Physical constants, from the top of `simulation.py`.

def R_E : ℝ := 6371e3

def h0 : ℝ := 100e3

def R_top : ℝ := R_E + h0

def G : ℝ := 6.67430e-11

def M_E : ℝ := 5.972e24

def v_esc : ℝ := Real.sqrt (2 * G * M_E / R_top)

/-- `MATERIAL_DENSITIES` lookup. -/
def materialDensity : Material → ℝ
  | .silicate => 3000.0
  | .carbonaceous => 1500.0
  | .iron_nickel => 7800.0

/-- `SOURCE_VELOCITY_RANGES` lookup, `(v_min, v_max)`. -/
def sourceVelocityRange : SourceFamily → ℝ × ℝ
  | .asteroidal => (11e3, 25e3)
  | .cometary => (20e3, 70e3)
  | .interstellar => (30e3, 100e3)

/-!
The `numpy.random.Generator` owned by the simulator is modelled by two
fixed draw streams and their positions: `ustream` yields the raw draws in
`[0, 1)` behind `uniform`, `random` and the weighted `choice`, and
`nstream` yields the standard-normal variates behind `normal`.  A seed
determines the streams; drawing only advances a position, so two
generators built from the same seed hold equal streams and produce equal
draw sequences.
-/
structure Rng where
  ustream : ℕ → ℝ
  nstream : ℕ → ℝ
  upos : ℕ
  npos : ℕ

/-- `rng.uniform(a, b)`: one raw draw `x ∈ [0,1)` mapped affinely. -/
def Rng.uniform (g : Rng) (a b : ℝ) : ℝ × Rng :=
  (a + (b - a) * g.ustream g.upos, ⟨g.ustream, g.nstream, g.upos + 1, g.npos⟩)

/-- `rng.random()`: one raw draw in `[0,1)`. -/
def Rng.random (g : Rng) : ℝ × Rng :=
  (g.ustream g.upos, ⟨g.ustream, g.nstream, g.upos + 1, g.npos⟩)

/-- `rng.normal(mu, sigma)`: one standard-normal variate, shifted and
scaled. -/
def Rng.normal (g : Rng) (mu sigma : ℝ) : ℝ × Rng :=
  (mu + sigma * g.nstream g.npos, ⟨g.ustream, g.nstream, g.upos, g.npos + 1⟩)

/-- `rng.normal(size=3)`: three standard-normal variates. -/
def Rng.normal3 (g : Rng) : Vec3 × Rng :=
  (⟨g.nstream g.npos, g.nstream (g.npos + 1), g.nstream (g.npos + 2)⟩,
   ⟨g.ustream, g.nstream, g.upos, g.npos + 3⟩)

/-- `sample_source`: weighted choice over `SOURCE_FRACTIONS`
(0.5/0.3/0.2, already normalized); one raw draw inverted through the
cumulative weights in the dict's insertion order. -/
def sample_source (g : Rng) : SourceFamily × Rng :=
  let d := g.random
  (if d.1 < 0.5 then .asteroidal else if d.1 < 0.8 then .cometary else .interstellar,
   d.2)

/-- `sample_radius`: power-law sampling in log space, exactly the source's
formula (`10 ** (log_r_min + (log_r_max - log_r_min) * (1 - u ** (1/(1-q))))`
for `q ≠ 1`, a uniform log-draw for `q = 1`). -/
def sample_radius (g : Rng) (r_min r_max q : ℝ) : ℝ × Rng :=
  if q = 1 then
    let d := g.uniform (Real.logb 10 r_min) (Real.logb 10 r_max)
    ((10 : ℝ) ^ d.1, d.2)
  else
    let d := g.uniform 0 1
    let log_r_min := Real.logb 10 r_min
    let log_r_max := Real.logb 10 r_max
    let log_r := log_r_min + (log_r_max - log_r_min) * (1 - d.1 ^ ((1 : ℝ) / (1 - q)))
    ((10 : ℝ) ^ log_r, d.2)

/-- `sample_material`: weighted choice over
`SOURCE_MATERIAL_DISTRIBUTIONS[source]` (weights already normalized),
one raw draw inverted through the cumulative weights in insertion order. -/
def sample_material (g : Rng) (source : SourceFamily) : Material × Rng :=
  let d := g.random
  (match source with
   | .asteroidal => if d.1 < 0.6 then .silicate else .iron_nickel
   | .cometary => if d.1 < 0.8 then .carbonaceous else .silicate
   | .interstellar => if d.1 < 0.5 then .silicate else .carbonaceous,
   d.2)

/-- `sample_v_inf`: normal draw from the range-derived mean/std, clipped
into the range. -/
def sample_v_inf (g : Rng) (source : SourceFamily) : ℝ × Rng :=
  let vr := sourceVelocityRange source
  let mean := (vr.1 + vr.2) / 2
  let std := (vr.2 - vr.1) / 4
  let d := g.normal mean std
  (clip d.1 vr.1 vr.2, d.2)

/-- `sample_direction`: isotropic for interstellar (normalized 3D normal
draw); otherwise ecliptic-biased spherical sampling with a randomized
z-sign, then normalized. -/
def sample_direction (g : Rng) (source : SourceFamily) : Vec3 × Rng :=
  if source = .interstellar then
    let d := g.normal3
    (d.1.div (norm3 d.1), d.2)
  else
    let dt := g.uniform 0 (2 * Real.pi)
    let dc := dt.2.uniform 0.5 1.0
    let cos_i := dc.1
    let sin_i := Real.sqrt (1 - cos_i ^ 2)
    -- `phi = np.arccos(cos_i)` is computed in the source but never used.
    let u0 : Vec3 := ⟨sin_i * Real.cos dt.1, sin_i * Real.sin dt.1, cos_i⟩
    let ds := dc.2.random
    let u1 := if ds.1 < 0.5 then ⟨u0.x, u0.y, -u0.z⟩ else u0
    (u1.div (norm3 u1), ds.2)

/-- The Rodrigues rotation matrix `I + sin(a)*K + (1-cos(a))*K@K` built in
`sample_perp_unit_vector`. -/
def rotationMatrix (u : Vec3) (angle : ℝ) : Mat3 :=
  let K : Mat3 := ⟨0, -u.z, u.y, u.z, 0, -u.x, -u.y, u.x, 0⟩
  madd (madd eye3 (msmul (Real.sin angle) K)) (msmul (1 - Real.cos angle) (mmul K K))

/-- `sample_perp_unit_vector`: Gram-Schmidt against a seed axis, then a
random Rodrigues rotation about `u`, then normalization. -/
def sample_perp_unit_vector (g : Rng) (u : Vec3) : Vec3 × Rng :=
  let v : Vec3 := if |u.x| < 0.9 then ⟨1, 0, 0⟩ else ⟨0, 1, 0⟩
  let v_perp := v.sub (u.smul (dot3 v u))
  let v_perp_n := v_perp.div (norm3 v_perp)
  let d := g.uniform 0 (2 * Real.pi)
  let v_rotated := mvec (rotationMatrix u d.1) v_perp_n
  (v_rotated.div (norm3 v_rotated), d.2)

/-- `compute_intersection_point`: guarded normalization of the impact
parameter (fresh perpendicular draw when the vector is zero), `t = 0`
when `|b_vec| >= R`, position rescaled to magnitude `R`, then lat/lon. -/
def compute_intersection_point (g : Rng) (u b_vec : Vec3) (R : ℝ) :
    (Vec3 × ℝ × ℝ) × Rng :=
  let bh := if norm3 b_vec > 0 then (b_vec.div (norm3 b_vec), g)
            else sample_perp_unit_vector g u
  -- `b_hat := bh.1` is dead after this point, exactly as in the source.
  let t := if norm3 b_vec < R then Real.sqrt (R ^ 2 - norm3 b_vec ^ 2) else 0
  let inter0 := (u.neg.smul t).add b_vec
  let intersection := (inter0.div (norm3 inter0)).smul R
  let lat := Real.arcsin (intersection.z / R) * 180 / Real.pi
  let lon := atan2 intersection.y intersection.x * 180 / Real.pi
  ((intersection, lat, lon), bh.2)

/-- `compute_entry_angle` (its `R` parameter is unused in the source). -/
def compute_entry_angle (v_entry_vec position : Vec3) (R : ℝ) : ℝ :=
  let normal := position.div (norm3 position)
  let v_hat := v_entry_vec.div (norm3 v_entry_vec)
  let cos_angle := -(dot3 v_hat normal)
  let angle := Real.arccos (clip cos_angle (-1) 1)
  angle * 180 / Real.pi

/-- `ParticleResult` record.  `incoming_unit_vector` keeps the source's
field name even though the stored value is the entry velocity vector. -/
structure ParticleResult where
  source_family : SourceFamily
  r : ℝ
  m : ℝ
  material : Material
  rho : ℝ
  v_inf : ℝ
  v_entry : ℝ
  incoming_unit_vector : Vec3
  impact_parameter_b : ℝ
  entry_angle : ℝ
  lat : ℝ
  lon : ℝ
  em_flag : Bool
  high_energy_flag : Bool
  selected_for_atmosphere : Bool

/-- `simulate_particle`: the full per-particle pipeline, draws consumed in
source order. -/
def simulate_particle (g : Rng) (r_min r_max q : ℝ) : ParticleResult × Rng :=
  let s := sample_source g
  let source := s.1
  let sr := sample_radius s.2 r_min r_max q
  let r := sr.1
  let sm := sample_material sr.2 source
  let material := sm.1
  let rho := materialDensity material
  let m := 4 / 3 * Real.pi * r ^ 3 * rho
  let sv := sample_v_inf sm.2 source
  let v_inf := sv.1
  let sd := sample_direction sv.2 source
  let u := sd.1
  let bmax := R_top * Real.sqrt (1 + v_esc ^ 2 / v_inf ^ 2)
  let sb := sample_perp_unit_vector sd.2 u
  let b_hat := sb.1
  let sbm := sb.2.uniform 0 1
  let b_mag := Real.sqrt sbm.1 * bmax
  let b_vec := b_hat.smul b_mag
  let v_entry_mag := Real.sqrt (v_inf ^ 2 + v_esc ^ 2)
  let v_entry_vec := u.neg.smul v_entry_mag
  let ci := compute_intersection_point sbm.2 u b_vec R_top
  let position := ci.1.1
  let lat := ci.1.2.1
  let lon := ci.1.2.2
  let entry_angle := compute_entry_angle v_entry_vec position R_top
  let em_flag := decide (r < 0.5e-6)
  let high_energy_flag := decide (v_entry_mag > 50e3)
  (⟨source, r, m, material, rho, v_inf, v_entry_mag, v_entry_vec, b_mag,
    entry_angle, lat, lon, em_flag, high_energy_flag, true⟩, ci.2)

/-- The simulator object: generator state plus the owned result list. -/
structure CosmicDustSimulator where
  rng : Rng
  results : List ParticleResult

/-- The `for i in range(N)` loop body of `run_simulation`, in generation
order (the progress print is I/O and has no effect on the results). -/
def runLoop (g : Rng) (n : ℕ) (r_min r_max q : ℝ) : List ParticleResult × Rng :=
  match n with
  | 0 => ([], g)
  | Nat.succ m =>
    let pr := simulate_particle g r_min r_max q
    let rest := runLoop pr.2 m r_min r_max q
    (pr.1 :: rest.1, rest.2)

/-- `run_simulation(N, r_min, r_max, q)`: replaces `self.results` with a
fresh list of `N` particles and returns it.  `range(N)` is empty for
`N ≤ 0`; the source performs no parameter validation and raises nothing. -/
def run_simulation (sim : CosmicDustSimulator) (N : ℤ) (r_min r_max q : ℝ) :
    List ParticleResult × CosmicDustSimulator :=
  let lp := runLoop sim.rng N.toNat r_min r_max q
  (lp.1, ⟨lp.2, lp.1⟩)

/-- min/max/mean/median block used by `get_diagnostics`. -/
structure Stats4 where
  min : ℝ
  max : ℝ
  mean : ℝ
  median : ℝ

def listMin : List ℝ → ℝ
  | [] => 0
  | a :: l => l.foldl min a

def listMax : List ℝ → ℝ
  | [] => 0
  | a :: l => l.foldl max a

/-- `np.median`: middle of the sorted data, averaging the two central
elements for even length. -/
def median (l : List ℝ) : ℝ :=
  let s := l.mergeSort (fun a b => decide (a ≤ b))
  let n := l.length
  if n % 2 = 1 then s.getD (n / 2) 0
  else (s.getD (n / 2 - 1) 0 + s.getD (n / 2) 0) / 2

def stats4 (l : List ℝ) : Stats4 :=
  ⟨listMin l, listMax l, l.sum / l.length, median l⟩

/-- The diagnostics dictionary (category counts are total functions; the
Python dict simply omits categories with count zero). -/
structure Diagnostics where
  total_particles : ℕ
  size_stats : Stats4
  v_inf_stats : Stats4
  v_entry_stats : Stats4
  source_distribution : SourceFamily → ℕ
  material_distribution : Material → ℕ
  em_particles : ℕ
  high_energy_particles : ℕ
  entry_angle_stats : Stats4
  total_mass_kg : ℝ

/-- `get_diagnostics`: returns the empty dict (`none`) when `results` is
empty — it raises nothing — and otherwise the statistics record. -/
def get_diagnostics (results : List ParticleResult) : Option Diagnostics :=
  if results.isEmpty then none
  else some
    ⟨results.length,
     stats4 (results.map (·.r)),
     stats4 (results.map (·.v_inf)),
     stats4 (results.map (·.v_entry)),
     fun s => (results.map (·.source_family)).count s,
     fun m => (results.map (·.material)).count m,
     (results.filter (·.em_flag)).length,
     (results.filter (·.high_energy_flag)).length,
     stats4 (results.map (·.entry_angle)),
     (results.map (·.m)).sum⟩

/-- One CSV data row of `export_csv`, the 3-vector flattened into three
columns. -/
structure CsvRow where
  source_family : SourceFamily
  r_m : ℝ
  m_kg : ℝ
  material : Material
  rho_kg_m3 : ℝ
  v_inf_m_s : ℝ
  v_entry_m_s : ℝ
  incoming_vector_x : ℝ
  incoming_vector_y : ℝ
  incoming_vector_z : ℝ
  impact_parameter_b_m : ℝ
  entry_angle_deg : ℝ
  lat_deg : ℝ
  lon_deg : ℝ
  em_flag : Bool
  high_energy_flag : Bool
  selected_for_atmosphere : Bool

def toRow (p : ParticleResult) : CsvRow :=
  ⟨p.source_family, p.r, p.m, p.material, p.rho, p.v_inf, p.v_entry,
   p.incoming_unit_vector.x, p.incoming_unit_vector.y, p.incoming_unit_vector.z,
   p.impact_parameter_b, p.entry_angle, p.lat, p.lon,
   p.em_flag, p.high_energy_flag, p.selected_for_atmosphere⟩

/-- `export_csv`: raises `ValueError("No simulation results to export")`
on an empty result list, otherwise writes one row per result in order
(the file I/O itself is outside the model). -/
def export_csv (results : List ParticleResult) : Except String (List CsvRow) :=
  if results.isEmpty then Except.error "No simulation results to export"
  else Except.ok (results.map toRow)

/-- A concrete generator state used to instantiate theorems: every raw
uniform draw is `0` (a value in `[0,1)`) and every normal variate is `1`. -/
def g0 : Rng := ⟨fun _ => 0, fun _ => 1, 0, 0⟩

/-!  Generic facts about the run loop. -/

theorem runLoop_length (r_min r_max q : ℝ) :
    ∀ (n : ℕ) (g : Rng), ((runLoop g n r_min r_max q).1).length = n := by
  intro n
  induction n with
  | zero => intro g; rfl
  | succ m ih => intro g; simp [runLoop, ih]

theorem mem_runLoop {r_min r_max q : ℝ} {P : ParticleResult → Prop}
    (hP : ∀ g : Rng, P (simulate_particle g r_min r_max q).1) :
    ∀ (n : ℕ) (g : Rng), ∀ p ∈ (runLoop g n r_min r_max q).1, P p := by
  intro n
  induction n with
  | zero => intro g p hp; simp [runLoop] at hp
  | succ m ih =>
    intro g p hp
    simp only [runLoop] at hp
    rcases List.mem_cons.mp hp with h | h
    · exact h ▸ hP g
    · exact ih _ p h

theorem run_one_mem (g : Rng) (rs : List ParticleResult) (r_min r_max q : ℝ) :
    (simulate_particle g r_min r_max q).1 ∈
      (run_simulation ⟨g, rs⟩ 1 r_min r_max q).1 :=
  show (simulate_particle g r_min r_max q).1 ∈
      [(simulate_particle g r_min r_max q).1] from List.mem_singleton_self _

/-!  Vector algebra lemmas. -/

/-- Squared Euclidean norm, the radicand of `norm3`. -/
def normSq (v : Vec3) : ℝ := v.x ^ 2 + v.y ^ 2 + v.z ^ 2

theorem norm3_eq_sqrt_normSq (v : Vec3) : norm3 v = Real.sqrt (normSq v) := rfl

theorem normSq_nonneg (v : Vec3) : 0 ≤ normSq v := by unfold normSq; positivity

theorem norm3_nonneg (v : Vec3) : 0 ≤ norm3 v := Real.sqrt_nonneg _

theorem norm3_eq_one_iff (v : Vec3) : norm3 v = 1 ↔ normSq v = 1 :=
  Real.sqrt_eq_one

theorem norm3_sq (v : Vec3) : norm3 v ^ 2 = normSq v :=
  Real.sq_sqrt (normSq_nonneg v)

theorem norm3_pos_iff (v : Vec3) : 0 < norm3 v ↔ 0 < normSq v := Real.sqrt_pos

theorem norm3_smul (v : Vec3) (c : ℝ) : norm3 (v.smul c) = |c| * norm3 v := by
  unfold norm3 Vec3.smul
  rw [show (v.x * c) ^ 2 + (v.y * c) ^ 2 + (v.z * c) ^ 2 =
    c ^ 2 * (v.x ^ 2 + v.y ^ 2 + v.z ^ 2) by ring,
    Real.sqrt_mul (by positivity), Real.sqrt_sq_eq_abs]

theorem norm3_div (v : Vec3) (c : ℝ) (hc : 0 < c) :
    norm3 (v.div c) = norm3 v / c := by
  unfold norm3 Vec3.div
  rw [show (v.x / c) ^ 2 + (v.y / c) ^ 2 + (v.z / c) ^ 2 =
    (v.x ^ 2 + v.y ^ 2 + v.z ^ 2) / c ^ 2 by ring,
    Real.sqrt_div (by positivity), Real.sqrt_sq hc.le]

theorem norm3_div_self (v : Vec3) (h : 0 < norm3 v) :
    norm3 (v.div (norm3 v)) = 1 := by
  rw [norm3_div v (norm3 v) h]
  exact div_self h.ne'

theorem dot3_div_right (u v : Vec3) (c : ℝ) :
    dot3 u (v.div c) = dot3 u v / c := by
  unfold dot3 Vec3.div; ring

theorem dot3_smul_right (u v : Vec3) (c : ℝ) :
    dot3 u (v.smul c) = dot3 u v * c := by
  unfold dot3 Vec3.smul; ring

theorem abs_z_le_norm3 (v : Vec3) : |v.z| ≤ norm3 v := by
  rw [← Real.sqrt_sq_eq_abs]
  exact Real.sqrt_le_sqrt (by nlinarith [sq_nonneg v.x, sq_nonneg v.y])

/-- A Rodrigues rotation about any axis preserves the dot product with
the axis (an algebraic identity of the skew matrix). -/
theorem rotation_dot (u w : Vec3) (a : ℝ) :
    dot3 u (mvec (rotationMatrix u a) w) = dot3 u w := by
  unfold rotationMatrix mvec madd msmul mmul eye3 dot3
  ring

/-- A Rodrigues rotation about a unit axis preserves the squared norm. -/
theorem rotation_normSq (u w : Vec3) (a : ℝ) (hu : normSq u = 1) :
    normSq (mvec (rotationMatrix u a) w) = normSq w := by
  have hsc := Real.sin_sq_add_cos_sq a
  unfold normSq at *
  unfold rotationMatrix mvec madd msmul mmul eye3
  linear_combination
    ((u.x ^ 2 + u.y ^ 2 + u.z ^ 2) * (w.x ^ 2 + w.y ^ 2 + w.z ^ 2) -
      (u.x * w.x + u.y * w.y + u.z * w.z) ^ 2) * hsc +
    ((u.x ^ 2 + u.y ^ 2 + u.z ^ 2) * (w.x ^ 2 + w.y ^ 2 + w.z ^ 2) -
      (u.x * w.x + u.y * w.y + u.z * w.z) ^ 2) * (1 - Real.cos a) ^ 2 * hu

/-- Gram-Schmidt step: projecting the component along a unit vector out
of `v` yields a vector perpendicular to `u`. -/
theorem gs_dot (u v : Vec3) (hu : normSq u = 1) :
    dot3 u (v.sub (u.smul (dot3 v u))) = 0 := by
  unfold normSq at hu
  unfold dot3 Vec3.sub Vec3.smul
  linear_combination (-(v.x * u.x + v.y * u.y + v.z * u.z)) * hu

/-- Squared norm of the Gram-Schmidt residual against a unit vector. -/
theorem gs_normSq (u v : Vec3) (hu : normSq u = 1) :
    normSq (v.sub (u.smul (dot3 v u))) = normSq v - dot3 v u ^ 2 := by
  unfold normSq at *
  unfold dot3 Vec3.sub Vec3.smul
  linear_combination ((v.x * u.x + v.y * u.y + v.z * u.z) ^ 2) * hu

/-- The full chain of `sample_perp_unit_vector` applied to a seed vector
`v`: Gram-Schmidt, normalization, Rodrigues rotation by any angle,
normalization — the result is a unit vector perpendicular to `u`. -/
theorem perp_chain_spec (u v : Vec3) (a : ℝ) (hu : normSq u = 1)
    (hv : normSq v = 1) (hd : dot3 v u ^ 2 < 1) :
    norm3 ((mvec (rotationMatrix u a)
        ((v.sub (u.smul (dot3 v u))).div
          (norm3 (v.sub (u.smul (dot3 v u)))))).div
      (norm3 (mvec (rotationMatrix u a)
        ((v.sub (u.smul (dot3 v u))).div
          (norm3 (v.sub (u.smul (dot3 v u)))))))) = 1 ∧
    dot3 u ((mvec (rotationMatrix u a)
        ((v.sub (u.smul (dot3 v u))).div
          (norm3 (v.sub (u.smul (dot3 v u)))))).div
      (norm3 (mvec (rotationMatrix u a)
        ((v.sub (u.smul (dot3 v u))).div
          (norm3 (v.sub (u.smul (dot3 v u)))))))) = 0 := by
  have hgsS : normSq (v.sub (u.smul (dot3 v u))) = normSq v - dot3 v u ^ 2 :=
    gs_normSq u v hu
  have hgs_pos : 0 < normSq (v.sub (u.smul (dot3 v u))) := by
    rw [hgsS, hv]; linarith
  have hn_pos : 0 < norm3 (v.sub (u.smul (dot3 v u))) :=
    (norm3_pos_iff _).mpr hgs_pos
  have hwS : normSq ((v.sub (u.smul (dot3 v u))).div
      (norm3 (v.sub (u.smul (dot3 v u))))) = 1 :=
    (norm3_eq_one_iff _).mp (norm3_div_self _ hn_pos)
  have hwd : dot3 u ((v.sub (u.smul (dot3 v u))).div
      (norm3 (v.sub (u.smul (dot3 v u))))) = 0 := by
    rw [dot3_div_right, gs_dot u v hu, zero_div]
  have hrotS : normSq (mvec (rotationMatrix u a)
      ((v.sub (u.smul (dot3 v u))).div
        (norm3 (v.sub (u.smul (dot3 v u)))))) = 1 := by
    rw [rotation_normSq _ _ _ hu, hwS]
  have hrot1 : norm3 (mvec (rotationMatrix u a)
      ((v.sub (u.smul (dot3 v u))).div
        (norm3 (v.sub (u.smul (dot3 v u)))))) = 1 :=
    (norm3_eq_one_iff _).mpr hrotS
  have hrotd : dot3 u (mvec (rotationMatrix u a)
      ((v.sub (u.smul (dot3 v u))).div
        (norm3 (v.sub (u.smul (dot3 v u)))))) = 0 := by
    rw [rotation_dot, hwd]
  constructor
  · exact norm3_div_self _ (by rw [hrot1]; norm_num)
  · rw [dot3_div_right, hrotd, zero_div]

/-- Correctness of `sample_perp_unit_vector`: for any unit `u` and any
generator state (hence any drawn rotation angle and either seed axis),
the result is a unit vector perpendicular to `u`. -/
theorem sample_perp_spec (g : Rng) (u : Vec3) (hu : norm3 u = 1) :
    norm3 (sample_perp_unit_vector g u).1 = 1 ∧
    dot3 u (sample_perp_unit_vector g u).1 = 0 := by
  have huS : normSq u = 1 := (norm3_eq_one_iff u).mp hu
  unfold sample_perp_unit_vector
  dsimp only
  by_cases hx : |u.x| < 0.9
  · rw [if_pos hx]
    refine perp_chain_spec u ⟨1, 0, 0⟩ _ huS (by norm_num [normSq]) ?_
    have h2 : u.x ^ 2 < 0.81 := by nlinarith [sq_abs u.x, abs_nonneg u.x]
    have hd : dot3 (⟨1, 0, 0⟩ : Vec3) u = u.x := by simp [dot3]
    rw [hd]; nlinarith
  · rw [if_neg hx]
    refine perp_chain_spec u ⟨0, 1, 0⟩ _ huS (by norm_num [normSq]) ?_
    push_neg at hx
    have h2 : (0.81 : ℝ) ≤ u.x ^ 2 := by nlinarith [sq_abs u.x, abs_nonneg u.x]
    have hd : dot3 (⟨0, 1, 0⟩ : Vec3) u = u.y := by simp [dot3]
    have huS' : u.x ^ 2 + u.y ^ 2 + u.z ^ 2 = 1 := huS
    rw [hd]; nlinarith [sq_nonneg u.z]

/-- C9: for every unit vector `u` and every generator state (any drawn
rotation angle and either seed axis), `sample_perp_unit_vector` returns a
unit vector perpendicular to `u`. -/
theorem C9_perp_unit_vector (g : Rng) (u : Vec3) (hu : norm3 u = 1) :
    norm3 (sample_perp_unit_vector g u).1 = 1 ∧
    dot3 u (sample_perp_unit_vector g u).1 = 0 :=
  sample_perp_spec g u hu

/-- C9 witness: instantiated at the z-axis unit vector and the concrete
generator `g0`. -/
theorem C9_perp_unit_vector_witness :
    norm3 (sample_perp_unit_vector g0 ⟨0, 0, 1⟩).1 = 1 ∧
    dot3 ⟨0, 0, 1⟩ (sample_perp_unit_vector g0 ⟨0, 0, 1⟩).1 = 0 :=
  C9_perp_unit_vector g0 ⟨0, 0, 1⟩ (by norm_num [norm3, Real.sqrt_one])

/-!  Intersection-point lemmas. -/

theorem inter_normSq (u b_vec : Vec3) (t : ℝ) (huS : normSq u = 1)
    (hb : dot3 u b_vec = 0) :
    normSq ((u.neg.smul t).add b_vec) = t ^ 2 + normSq b_vec := by
  unfold normSq at *
  unfold dot3 at hb
  unfold Vec3.neg Vec3.smul Vec3.add
  linear_combination (t ^ 2) * huS + (-(2 * t)) * hb

theorem inter_dot (u b_vec : Vec3) (t : ℝ) (huS : normSq u = 1)
    (hb : dot3 u b_vec = 0) :
    dot3 u ((u.neg.smul t).add b_vec) = -t := by
  unfold normSq at huS
  unfold dot3 at *
  unfold Vec3.neg Vec3.smul Vec3.add
  linear_combination (-t) * huS + hb

theorem scaled_norm (w : Vec3) (R : ℝ) (hw : 0 < norm3 w) (hR : 0 < R) :
    norm3 ((w.div (norm3 w)).smul R) = R := by
  rw [norm3_smul, norm3_div_self _ hw, abs_of_pos hR, mul_one]

/-- Core geometry of `compute_intersection_point`: for a unit incoming
direction, a perpendicular impact offset, a positive radius and any
nonnegative `t` making `-u*t + b_vec` nonzero, the rescaled intersection
point has magnitude exactly `R` and lies on the incoming side
(`dot3 u p ≤ 0`). -/
theorem intersection_core (u b_vec : Vec3) (t R : ℝ) (huS : normSq u = 1)
    (hb : dot3 u b_vec = 0) (hR : 0 < R) (ht : 0 ≤ t)
    (hpos : 0 < normSq ((u.neg.smul t).add b_vec)) :
    norm3 ((((u.neg.smul t).add b_vec).div
      (norm3 ((u.neg.smul t).add b_vec))).smul R) = R ∧
    dot3 u ((((u.neg.smul t).add b_vec).div
      (norm3 ((u.neg.smul t).add b_vec))).smul R) ≤ 0 := by
  have hn : 0 < norm3 ((u.neg.smul t).add b_vec) := (norm3_pos_iff _).mpr hpos
  refine ⟨scaled_norm _ R hn hR, ?_⟩
  rw [dot3_smul_right, dot3_div_right, inter_dot u b_vec t huS hb]
  have h1 : -t / norm3 ((u.neg.smul t).add b_vec) ≤ 0 :=
    div_nonpos_iff.mpr (Or.inr ⟨by linarith, hn.le⟩)
  exact mul_nonpos_of_nonpos_of_nonneg h1 hR.le

/-- Specification of `compute_intersection_point` under the conditions of
its call site (unit direction, perpendicular impact vector, positive
radius), covering the guarded branches `|b_vec| = 0` (fresh perpendicular
fallback, no division by zero) and `|b_vec| ≥ R` (`t = 0`, no square root
of a negative): the returned position always has magnitude exactly `R`
and satisfies `dot3 u p ≤ 0`. -/
theorem intersection_spec (g : Rng) (u b_vec : Vec3) (R : ℝ)
    (hu : norm3 u = 1) (hb : dot3 u b_vec = 0) (hR : 0 < R) :
    norm3 (compute_intersection_point g u b_vec R).1.1 = R ∧
    dot3 u (compute_intersection_point g u b_vec R).1.1 ≤ 0 := by
  have huS : normSq u = 1 := (norm3_eq_one_iff u).mp hu
  unfold compute_intersection_point
  dsimp only
  by_cases hlt : norm3 b_vec < R
  · rw [if_pos hlt]
    have hbn : 0 ≤ norm3 b_vec := norm3_nonneg b_vec
    have harg : 0 ≤ R ^ 2 - norm3 b_vec ^ 2 := by nlinarith
    have ht : 0 ≤ Real.sqrt (R ^ 2 - norm3 b_vec ^ 2) := Real.sqrt_nonneg _
    have htsq : Real.sqrt (R ^ 2 - norm3 b_vec ^ 2) ^ 2 =
        R ^ 2 - norm3 b_vec ^ 2 := Real.sq_sqrt harg
    refine intersection_core u b_vec _ R huS hb hR ht ?_
    rw [inter_normSq u b_vec _ huS hb, htsq, norm3_sq]
    nlinarith
  · rw [if_neg hlt]
    push_neg at hlt
    refine intersection_core u b_vec 0 R huS hb hR le_rfl ?_
    rw [inter_normSq u b_vec 0 huS hb, ← norm3_sq]
    nlinarith

/-- C8: `compute_intersection_point` is total and numerically guarded:
for every unit `u`, every `b_vec` perpendicular to `u` (including
`b_vec = 0`, where the normalization falls back to a freshly sampled
perpendicular direction, and `|b_vec| ≥ R`, where `t` is set to `0`) and
every positive `R`, it returns a position of magnitude exactly `R`, with
`z/R ∈ [-1, 1]` so that `lat = asin(z/R) * 180 / pi` is well-defined and
is exactly what the second component returns. -/
theorem C8_intersection_total_on_sphere (g : Rng) (u b_vec : Vec3) (R : ℝ)
    (hu : norm3 u = 1) (hb : dot3 u b_vec = 0) (hR : 0 < R) :
    norm3 (compute_intersection_point g u b_vec R).1.1 = R ∧
    (-1 ≤ (compute_intersection_point g u b_vec R).1.1.z / R ∧
      (compute_intersection_point g u b_vec R).1.1.z / R ≤ 1) ∧
    (compute_intersection_point g u b_vec R).1.2.1 =
      Real.arcsin ((compute_intersection_point g u b_vec R).1.1.z / R) *
        180 / Real.pi := by
  obtain ⟨hnorm, -⟩ := intersection_spec g u b_vec R hu hb hR
  refine ⟨hnorm, ?_, rfl⟩
  have hz : |(compute_intersection_point g u b_vec R).1.1.z| ≤ R := by
    have := abs_z_le_norm3 (compute_intersection_point g u b_vec R).1.1
    rw [hnorm] at this
    exact this
  have habs : |(compute_intersection_point g u b_vec R).1.1.z / R| ≤ 1 := by
    rw [abs_div, abs_of_pos hR]
    exact div_le_one_of_le₀ hz hR.le
  exact abs_le.mp habs

/-- C8 witness: the x-axis direction, a zero impact vector (exercising
the perpendicular fallback) and the unit sphere. -/
theorem C8_intersection_total_on_sphere_witness :
    norm3 (compute_intersection_point g0 ⟨1, 0, 0⟩ ⟨0, 0, 0⟩ 1).1.1 = 1 ∧
    (-1 ≤ (compute_intersection_point g0 ⟨1, 0, 0⟩ ⟨0, 0, 0⟩ 1).1.1.z / 1 ∧
      (compute_intersection_point g0 ⟨1, 0, 0⟩ ⟨0, 0, 0⟩ 1).1.1.z / 1 ≤ 1) ∧
    (compute_intersection_point g0 ⟨1, 0, 0⟩ ⟨0, 0, 0⟩ 1).1.2.1 =
      Real.arcsin ((compute_intersection_point g0 ⟨1, 0, 0⟩ ⟨0, 0, 0⟩ 1).1.1.z / 1) *
        180 / Real.pi :=
  C8_intersection_total_on_sphere g0 ⟨1, 0, 0⟩ ⟨0, 0, 0⟩ 1
    (by norm_num [norm3, Real.sqrt_one]) (by norm_num [dot3]) (by norm_num)

/-!  Draw streams are fixed by the seed: every sampler only advances the
positions.  These rewrite lemmas propagate that fact through the
pipeline. -/

theorem uniform_ustream (g : Rng) (a b : ℝ) :
    (g.uniform a b).2.ustream = g.ustream := rfl

theorem uniform_nstream (g : Rng) (a b : ℝ) :
    (g.uniform a b).2.nstream = g.nstream := rfl

theorem sample_source_ustream (g : Rng) :
    (sample_source g).2.ustream = g.ustream := rfl

theorem sample_source_nstream (g : Rng) :
    (sample_source g).2.nstream = g.nstream := rfl

theorem sample_radius_ustream (g : Rng) (r_min r_max q : ℝ) :
    (sample_radius g r_min r_max q).2.ustream = g.ustream := by
  unfold sample_radius; split <;> rfl

theorem sample_radius_nstream (g : Rng) (r_min r_max q : ℝ) :
    (sample_radius g r_min r_max q).2.nstream = g.nstream := by
  unfold sample_radius; split <;> rfl

theorem sample_material_ustream (g : Rng) (s : SourceFamily) :
    (sample_material g s).2.ustream = g.ustream := rfl

theorem sample_material_nstream (g : Rng) (s : SourceFamily) :
    (sample_material g s).2.nstream = g.nstream := rfl

theorem sample_v_inf_ustream (g : Rng) (s : SourceFamily) :
    (sample_v_inf g s).2.ustream = g.ustream := rfl

theorem sample_v_inf_nstream (g : Rng) (s : SourceFamily) :
    (sample_v_inf g s).2.nstream = g.nstream := rfl

theorem sample_direction_ustream (g : Rng) (s : SourceFamily) :
    (sample_direction g s).2.ustream = g.ustream := by
  unfold sample_direction; split <;> rfl

theorem sample_direction_nstream (g : Rng) (s : SourceFamily) :
    (sample_direction g s).2.nstream = g.nstream := by
  unfold sample_direction; split <;> rfl

theorem sample_perp_ustream (g : Rng) (u : Vec3) :
    (sample_perp_unit_vector g u).2.ustream = g.ustream := rfl

theorem sample_perp_nstream (g : Rng) (u : Vec3) :
    (sample_perp_unit_vector g u).2.nstream = g.nstream := rfl

theorem intersection_ustream (g : Rng) (u b_vec : Vec3) (R : ℝ) :
    (compute_intersection_point g u b_vec R).2.ustream = g.ustream := by
  unfold compute_intersection_point; dsimp only; split <;> rfl

theorem intersection_nstream (g : Rng) (u b_vec : Vec3) (R : ℝ) :
    (compute_intersection_point g u b_vec R).2.nstream = g.nstream := by
  unfold compute_intersection_point; dsimp only; split <;> rfl

theorem simulate_particle_ustream (g : Rng) (r_min r_max q : ℝ) :
    (simulate_particle g r_min r_max q).2.ustream = g.ustream := by
  simp only [simulate_particle, intersection_ustream, uniform_ustream,
    sample_perp_ustream, sample_direction_ustream, sample_v_inf_ustream,
    sample_material_ustream, sample_radius_ustream, sample_source_ustream]

theorem simulate_particle_nstream (g : Rng) (r_min r_max q : ℝ) :
    (simulate_particle g r_min r_max q).2.nstream = g.nstream := by
  simp only [simulate_particle, intersection_nstream, uniform_nstream,
    sample_perp_nstream, sample_direction_nstream, sample_v_inf_nstream,
    sample_material_nstream, sample_radius_nstream, sample_source_nstream]

/-- Raw uniform draws lie in `[0, 1)` (the codomain of
`Generator.uniform(0,1)` / `Generator.random`). -/
def UValid (g : Rng) : Prop := ∀ i, 0 ≤ g.ustream i ∧ g.ustream i < 1

/-- Standard-normal variates are nonzero — the draw `0` (or an all-zero
3-vector) has probability zero and would make the isotropic-direction
normalization degenerate. -/
def NValid (g : Rng) : Prop := ∀ i, g.nstream i ≠ 0

theorem UValid_of_eq {g h : Rng} (e : h.ustream = g.ustream) (hU : UValid g) :
    UValid h := by intro i; rw [e]; exact hU i

theorem NValid_of_eq {g h : Rng} (e : h.nstream = g.nstream) (hN : NValid g) :
    NValid h := by intro i; rw [e]; exact hN i

/-- `sample_direction` always returns a unit vector: isotropic branch by
normalizing a nonzero normal draw, ecliptic branch because
`sin_i^2 + cos_i^2 = 1` holds for `cos_i ∈ [0.5, 1)`. -/
theorem sample_direction_unit (g : Rng) (source : SourceFamily)
    (hU : UValid g) (hN : NValid g) :
    norm3 (sample_direction g source).1 = 1 := by
  unfold sample_direction
  by_cases hs : source = .interstellar
  · rw [if_pos hs]
    dsimp only [Rng.normal3]
    apply norm3_div_self
    apply (norm3_pos_iff _).mpr
    have h1 := hN g.npos
    have h2 : 0 < g.nstream g.npos ^ 2 := by
      rcases h1.lt_or_lt with h | h <;> nlinarith
    unfold normSq
    nlinarith [sq_nonneg (g.nstream (g.npos + 1)), sq_nonneg (g.nstream (g.npos + 2))]
  · rw [if_neg hs]
    dsimp only [Rng.uniform, Rng.random]
    apply norm3_div_self
    apply (norm3_pos_iff _).mpr
    obtain ⟨hx0, hx1⟩ := hU (g.upos + 1)
    have hc0 : (0.5 : ℝ) ≤ 0.5 + (1.0 - 0.5) * g.ustream (g.upos + 1) := by nlinarith
    have hc1 : 0.5 + (1.0 - 0.5) * g.ustream (g.upos + 1) < 1 := by nlinarith
    have harg : 0 ≤ 1 - (0.5 + (1.0 - 0.5) * g.ustream (g.upos + 1)) ^ 2 := by nlinarith
    have hsin := Real.sq_sqrt harg
    have hpy := Real.sin_sq_add_cos_sq (0 + (2 * Real.pi - 0) * g.ustream g.upos)
    split <;> · unfold normSq; dsimp only; nlinarith [hsin, hpy]

theorem norm3_neg (v : Vec3) : norm3 v.neg = norm3 v := by
  unfold norm3 Vec3.neg
  rw [show (-v.x) ^ 2 + (-v.y) ^ 2 + (-v.z) ^ 2 = v.x ^ 2 + v.y ^ 2 + v.z ^ 2 by ring]

theorem dot3_div_left (u v : Vec3) (c : ℝ) :
    dot3 (u.div c) v = dot3 u v / c := by
  unfold dot3 Vec3.div; ring

theorem dot3_neg_smul (u w : Vec3) (c : ℝ) :
    dot3 (u.neg.smul c) w = -(c * dot3 u w) := by
  unfold dot3 Vec3.neg Vec3.smul; ring

/-- Bounds on `compute_entry_angle`: when the velocity vector is
`-u * vmag` for a unit `u` with `vmag > 0` and the position has magnitude
`R > 0` with `dot3 u position ≤ 0`, the angle lies in `[90, 180]`
degrees. -/
theorem entry_angle_bounds (u position : Vec3) (vmag R : ℝ)
    (hu : norm3 u = 1) (hv : 0 < vmag) (hpos : norm3 position = R)
    (hR : 0 < R) (hdot : dot3 u position ≤ 0) :
    90 ≤ compute_entry_angle (u.neg.smul vmag) position R ∧
    compute_entry_angle (u.neg.smul vmag) position R ≤ 180 := by
  unfold compute_entry_angle
  dsimp only
  have hnv : norm3 (u.neg.smul vmag) = vmag := by
    rw [norm3_smul, norm3_neg, hu, mul_one, abs_of_pos hv]
  have hca : -(dot3 ((u.neg.smul vmag).div (norm3 (u.neg.smul vmag)))
      (position.div (norm3 position))) = dot3 u position / R := by
    rw [hnv, hpos, dot3_div_left, dot3_div_right, dot3_neg_smul]
    field_simp
    ring
  have hca_nonpos : -(dot3 ((u.neg.smul vmag).div (norm3 (u.neg.smul vmag)))
      (position.div (norm3 position))) ≤ 0 := by
    rw [hca]
    apply div_nonpos_iff.mpr
    exact Or.inr ⟨hdot, hR.le⟩
  set ca := -(dot3 ((u.neg.smul vmag).div (norm3 (u.neg.smul vmag)))
      (position.div (norm3 position))) with hcadef
  have hclip_le : clip ca (-1) 1 ≤ 0 := by
    unfold clip
    calc min (max ca (-1)) 1 ≤ max ca (-1) := min_le_left _ _
    _ ≤ 0 := max_le hca_nonpos (by norm_num)
  have hclip_ge : -1 ≤ clip ca (-1) 1 :=
    le_min (le_max_right _ _) (by norm_num)
  have harccos_ge : Real.pi / 2 ≤ Real.arccos (clip ca (-1) 1) := by
    rw [Real.arccos_eq_pi_div_two_sub_arcsin]
    have := Real.arcsin_nonpos.mpr hclip_le
    linarith
  have harccos_le : Real.arccos (clip ca (-1) 1) ≤ Real.pi :=
    Real.arccos_le_pi _
  have hpi : (0 : ℝ) < Real.pi := Real.pi_pos
  constructor
  · have h90 : (90 : ℝ) = Real.pi / 2 * 180 / Real.pi := by
      field_simp
      ring
    rw [h90]
    apply (div_le_div_iff_of_pos_right hpi).mpr
    nlinarith
  · have h180 : (180 : ℝ) = Real.pi * 180 / Real.pi := by
      field_simp
    rw [h180]
    apply (div_le_div_iff_of_pos_right hpi).mpr
    nlinarith

theorem R_top_pos : (0 : ℝ) < R_top := by norm_num [R_top, R_E, h0]

/-- Physical constants: the squared escape velocity is the (large,
positive) rational `2 G M_E / R_top`. -/
theorem v_esc_sq : v_esc ^ 2 = 2 * G * M_E / R_top :=
  Real.sq_sqrt (by norm_num [G, M_E, R_top, R_E, h0])

theorem v_esc_sq_gt_one : (1 : ℝ) < 2 * G * M_E / R_top := by
  rw [lt_div_iff₀ R_top_pos]
  norm_num [G, M_E, R_top, R_E, h0]

/-- Per-particle invariants of `simulate_particle` needing only that raw
uniform draws lie in `[0,1)` and normal variates are nonzero: the stored
`incoming_unit_vector` has Euclidean norm `v_entry` (which exceeds 1, so
it is not a unit vector), and the entry angle lies in `[90, 180]`. -/
theorem simulate_particle_spec (g : Rng) (r_min r_max q : ℝ)
    (hU : UValid g) (hN : NValid g) :
    norm3 (simulate_particle g r_min r_max q).1.incoming_unit_vector =
      (simulate_particle g r_min r_max q).1.v_entry ∧
    1 < (simulate_particle g r_min r_max q).1.v_entry ∧
    90 ≤ (simulate_particle g r_min r_max q).1.entry_angle ∧
    (simulate_particle g r_min r_max q).1.entry_angle ≤ 180 := by
  simp only [simulate_particle]
  set s := sample_source g with hs
  set sr := sample_radius s.2 r_min r_max q with hsr
  set sm := sample_material sr.2 s.1 with hsm
  set sv := sample_v_inf sm.2 s.1 with hsv
  set sd := sample_direction sv.2 s.1 with hsd
  set sb := sample_perp_unit_vector sd.2 sd.1 with hsb
  set sbm := sb.2.uniform 0 1 with hsbm
  set vm := Real.sqrt (sv.1 ^ 2 + v_esc ^ 2) with hvm
  set bm := Real.sqrt sbm.1 * (R_top * Real.sqrt (1 + v_esc ^ 2 / sv.1 ^ 2)) with hbm
  set bv := sb.1.smul bm with hbv
  set ci := compute_intersection_point sbm.2 sd.1 bv R_top with hci
  have hUsv : UValid sv.2 := by
    apply UValid_of_eq ?_ hU
    simp only [hsv, hsm, hsr, hs, sample_v_inf_ustream, sample_material_ustream,
      sample_radius_ustream, sample_source_ustream]
  have hNsv : NValid sv.2 := by
    apply NValid_of_eq ?_ hN
    simp only [hsv, hsm, hsr, hs, sample_v_inf_nstream, sample_material_nstream,
      sample_radius_nstream, sample_source_nstream]
  have hu1 : norm3 sd.1 = 1 := by
    rw [hsd]; exact sample_direction_unit sv.2 s.1 hUsv hNsv
  have hperp : norm3 sb.1 = 1 ∧ dot3 sd.1 sb.1 = 0 := by
    rw [hsb]; exact sample_perp_spec sd.2 sd.1 hu1
  have hvgt : 1 < vm := by
    rw [hvm, show (1 : ℝ) = Real.sqrt 1 by rw [Real.sqrt_one]]
    apply Real.sqrt_lt_sqrt (by norm_num)
    nlinarith [sq_nonneg sv.1, v_esc_sq, v_esc_sq_gt_one]
  have hvpos : 0 < vm := lt_trans one_pos hvgt
  have hbperp : dot3 sd.1 bv = 0 := by
    rw [hbv, dot3_smul_right, hperp.2, zero_mul]
  have hinter : norm3 ci.1.1 = R_top ∧ dot3 sd.1 ci.1.1 ≤ 0 := by
    rw [hci]; exact intersection_spec sbm.2 sd.1 bv R_top hu1 hbperp R_top_pos
  have hangle := entry_angle_bounds sd.1 ci.1.1 vm R_top hu1 hvpos
    hinter.1 R_top_pos hinter.2
  refine ⟨?_, hvgt, hangle.1, hangle.2⟩
  rw [norm3_smul, norm3_neg, hu1, mul_one, abs_of_pos hvpos]

/-- Run-level lift of a per-particle property that needs the draw-stream
validity assumptions. -/
theorem mem_runLoop_valid {r_min r_max q : ℝ} {P : ParticleResult → Prop}
    (hP : ∀ g : Rng, UValid g → NValid g →
      P (simulate_particle g r_min r_max q).1) :
    ∀ (n : ℕ) (g : Rng), UValid g → NValid g →
      ∀ p ∈ (runLoop g n r_min r_max q).1, P p := by
  intro n
  induction n with
  | zero => intro g _ _ p hp; simp [runLoop] at hp
  | succ m ih =>
    intro g hU hN p hp
    simp only [runLoop] at hp
    rcases List.mem_cons.mp hp with h | h
    · exact h ▸ hP g hU hN
    · exact ih (simulate_particle g r_min r_max q).2
        (UValid_of_eq (simulate_particle_ustream g r_min r_max q) hU)
        (NValid_of_eq (simulate_particle_nstream g r_min r_max q) hN) p h

theorem g0_uvalid : UValid g0 := by intro i; constructor <;> norm_num [g0]

theorem g0_nvalid : NValid g0 := by intro i; norm_num [g0]

/-- C7: for every particle produced by a run (with raw uniform draws in
`[0,1)` and nonzero normal variates), the `incoming_unit_vector` field
stores the entry velocity vector `-u * v_entry_mag`: its Euclidean norm
equals `v_entry = sqrt(v_inf^2 + v_esc^2)` and is not `1`. -/
theorem C7_entry_velocity_vector_stored (g : Rng) (rs : List ParticleResult)
    (N : ℤ) (r_min r_max q : ℝ) (hU : UValid g) (hN : NValid g)
    (p : ParticleResult) (hp : p ∈ (run_simulation ⟨g, rs⟩ N r_min r_max q).1) :
    norm3 p.incoming_unit_vector = p.v_entry ∧
    p.v_entry = Real.sqrt (p.v_inf ^ 2 + v_esc ^ 2) ∧
    norm3 p.incoming_unit_vector ≠ 1 := by
  have hmem := @mem_runLoop_valid r_min r_max q
    (fun p => (norm3 p.incoming_unit_vector = p.v_entry ∧ 1 < p.v_entry) ∧
      p.v_entry = Real.sqrt (p.v_inf ^ 2 + v_esc ^ 2))
    (fun g' hU' hN' =>
      ⟨⟨(simulate_particle_spec g' r_min r_max q hU' hN').1,
        (simulate_particle_spec g' r_min r_max q hU' hN').2.1⟩, rfl⟩)
    N.toNat g hU hN p hp
  exact ⟨hmem.1.1, hmem.2, by rw [hmem.1.1]; exact ne_of_gt hmem.1.2⟩

/-- C7 witness: a one-particle run from the concrete generator `g0`. -/
theorem C7_entry_velocity_vector_stored_witness :
    norm3 (simulate_particle g0 1e-7 1e-3 3).1.incoming_unit_vector =
      (simulate_particle g0 1e-7 1e-3 3).1.v_entry ∧
    (simulate_particle g0 1e-7 1e-3 3).1.v_entry =
      Real.sqrt ((simulate_particle g0 1e-7 1e-3 3).1.v_inf ^ 2 + v_esc ^ 2) ∧
    norm3 (simulate_particle g0 1e-7 1e-3 3).1.incoming_unit_vector ≠ 1 :=
  C7_entry_velocity_vector_stored g0 [] 1 1e-7 1e-3 3 g0_uvalid g0_nvalid _
    (run_one_mem g0 [] 1e-7 1e-3 3)

/-- C10: for every particle produced by a run (with raw uniform draws in
`[0,1)` and nonzero normal variates), the entry angle lies in `[90, 180]`
degrees — the cosine fed to `arccos` is `-t/R ≤ 0` because the impact
offset is perpendicular to the incoming direction, a strict sub-range of
the spec's stated `[0, 180]`. -/
theorem C10_entry_angle_range (g : Rng) (rs : List ParticleResult)
    (N : ℤ) (r_min r_max q : ℝ) (hU : UValid g) (hN : NValid g)
    (p : ParticleResult) (hp : p ∈ (run_simulation ⟨g, rs⟩ N r_min r_max q).1) :
    90 ≤ p.entry_angle ∧ p.entry_angle ≤ 180 :=
  @mem_runLoop_valid r_min r_max q
    (fun p => 90 ≤ p.entry_angle ∧ p.entry_angle ≤ 180)
    (fun g' hU' hN' => ⟨(simulate_particle_spec g' r_min r_max q hU' hN').2.2.1,
      (simulate_particle_spec g' r_min r_max q hU' hN').2.2.2⟩)
    N.toNat g hU hN p hp

/-- C10 witness: a one-particle run from the concrete generator `g0`. -/
theorem C10_entry_angle_range_witness :
    90 ≤ (simulate_particle g0 1e-7 1e-3 3).1.entry_angle ∧
    (simulate_particle g0 1e-7 1e-3 3).1.entry_angle ≤ 180 :=
  C10_entry_angle_range g0 [] 1 1e-7 1e-3 3 g0_uvalid g0_nvalid _
    (run_one_mem g0 [] 1e-7 1e-3 3)

/-- Generator state whose first raw uniform draw is `1/4`, a feasible
value of `rng.uniform(0, 1)`. -/
def gQuarter : Rng := ⟨fun _ => 1 / 4, fun _ => 0, 0, 0⟩

theorem rpow_neg_seven : (10 : ℝ) ^ (-7 : ℝ) = 1e-7 := by
  rw [show ((-7 : ℝ)) = ((-7 : ℤ) : ℝ) by norm_num, Real.rpow_intCast]
  norm_num

theorem rpow_neg_three : (10 : ℝ) ^ (-3 : ℝ) = 1e-3 := by
  rw [show ((-3 : ℝ)) = ((-3 : ℤ) : ℝ) by norm_num, Real.rpow_intCast]
  norm_num

theorem rpow_neg_eleven : (10 : ℝ) ^ (-11 : ℝ) = 1e-11 := by
  rw [show ((-11 : ℝ)) = ((-11 : ℤ) : ℝ) by norm_num, Real.rpow_intCast]
  norm_num

theorem quarter_rpow : (1 / 4 : ℝ) ^ ((1 : ℝ) / (1 - 3)) = 2 := by
  rw [show ((1 : ℝ) / (1 - 3)) = -(1 / 2) by norm_num,
    Real.rpow_neg (by norm_num : (0 : ℝ) ≤ 1 / 4), ← Real.sqrt_eq_rpow,
    show (1 / 4 : ℝ) = (1 / 2) ^ 2 by norm_num,
    Real.sqrt_sq (by norm_num : (0 : ℝ) ≤ 1 / 2)]
  norm_num

/-- C1 is violated by the code: with `r_min = 1e-7`, `r_max = 1e-3` and
the default `q = 3`, the feasible uniform draw `u = 1/4` makes
`sample_radius` return `1e-11`, far below `r_min` (for `q > 1` the
exponent `1/(1-q)` is negative, so `u^(1/(1-q)) ≥ 1` and every draw
`u < 1` lands strictly below `r_min`). -/
theorem C1_radius_below_min :
    (0 : ℝ) ≤ gQuarter.ustream 0 ∧ gQuarter.ustream 0 < 1 ∧
    (sample_radius gQuarter 1e-7 1e-3 3).1 = 1e-11 ∧ ((1e-11 : ℝ) < 1e-7) := by
  refine ⟨by norm_num [gQuarter], by norm_num [gQuarter], ?_, by norm_num⟩
  have hb : (0 : ℝ) < 10 := by norm_num
  have hb1 : (10 : ℝ) ≠ 1 := by norm_num
  have h7 : Real.logb 10 (1e-7 : ℝ) = -7 := by
    rw [← rpow_neg_seven, Real.logb_rpow hb hb1]
  have h3 : Real.logb 10 (1e-3 : ℝ) = -3 := by
    rw [← rpow_neg_three, Real.logb_rpow hb hb1]
  have hdraw : (0 : ℝ) + (1 - 0) * gQuarter.ustream gQuarter.upos = 1 / 4 := by
    norm_num [gQuarter]
  unfold sample_radius
  rw [if_neg (by norm_num : ¬((3 : ℝ) = 1))]
  unfold Rng.uniform
  dsimp only
  rw [h7, h3, hdraw, quarter_rpow]
  rw [show ((-7 : ℝ) + (-3 - -7) * (1 - 2)) = -11 by norm_num]
  exact rpow_neg_eleven

/-- C2 counterexample: contrary to the claim, `run_simulation` raises no
`InvalidParameter` error.  At `N = 0` with `r_min = r_max` it returns
normally with an empty result list, and the generator state (hence its
draw position) is untouched. -/
theorem C2_counterexample_no_validation :
    (run_simulation ⟨g0, []⟩ 0 1e-7 1e-7 3).1 = [] ∧
    (run_simulation ⟨g0, []⟩ 0 1e-7 1e-7 3).2.rng = g0 :=
  ⟨rfl, rfl⟩

/-- C2 amended: `run_simulation` performs no parameter validation and
never fails.  For `N ≤ 0` it returns an empty sequence leaving the draw
position unchanged; for `r_min = r_max` (as for any parameters) it runs
normally and produces exactly `N.toNat` results. -/
theorem C2_no_validation (sim : CosmicDustSimulator) (N : ℤ) (r_min r_max q : ℝ) :
    (N ≤ 0 → (run_simulation sim N r_min r_max q).1 = [] ∧
      (run_simulation sim N r_min r_max q).2.rng = sim.rng) ∧
    ((run_simulation sim N r_min r_min q).1).length = N.toNat := by
  constructor
  · intro hN
    have h0 : N.toNat = 0 := Int.toNat_of_nonpos hN
    exact ⟨by simp [run_simulation, h0, runLoop], by simp [run_simulation, h0, runLoop]⟩
  · exact runLoop_length r_min r_min q N.toNat sim.rng

/-- C2 witness: the amended statement instantiated at `N = 0`. -/
theorem C2_no_validation_witness :
    ((run_simulation ⟨g0, []⟩ 0 1e-7 1e-3 3).1 = [] ∧
      (run_simulation ⟨g0, []⟩ 0 1e-7 1e-3 3).2.rng = g0) ∧
    ((run_simulation ⟨g0, []⟩ 0 1e-7 1e-7 3).1).length = (0 : ℤ).toNat :=
  ⟨(C2_no_validation ⟨g0, []⟩ 0 1e-7 1e-3 3).1 (by norm_num),
   (C2_no_validation ⟨g0, []⟩ 0 1e-7 1e-7 3).2⟩

/-- C3 counterexample: `get_diagnostics` on an empty result collection
returns the empty dict (`none`) — a normal return value, not a raised
error — refuting the claim that both operations fail by raising. -/
theorem C3_counterexample_diagnostics_empty :
    get_diagnostics [] = none := rfl

/-- C3 amended: on an empty result collection `export_csv` raises
`ValueError("No simulation results to export")` while `get_diagnostics`
returns the empty dict without raising. -/
theorem C3_empty_behavior (results : List ParticleResult)
    (h : results.isEmpty = true) :
    get_diagnostics results = none ∧
    export_csv results = Except.error "No simulation results to export" :=
  ⟨by simp [get_diagnostics, h], by simp [export_csv, h]⟩

/-- C3 witness: the amended statement instantiated at the empty list. -/
theorem C3_empty_behavior_witness :
    get_diagnostics [] = none ∧
    export_csv [] = Except.error "No simulation results to export" :=
  C3_empty_behavior [] rfl

/-- C4: two simulators whose generators were built from the same seed hold
equal draw streams (the `RandomSource` determinism contract, which the
stream model realizes by construction); run with identical parameters they
produce identical result sequences element-for-element and store identical
collections, regardless of any prior results they held. -/
theorem C4_determinism (us ns : ℕ → ℝ) (rs1 rs2 : List ParticleResult)
    (N : ℤ) (r_min r_max q : ℝ) :
    (run_simulation ⟨⟨us, ns, 0, 0⟩, rs1⟩ N r_min r_max q).1 =
      (run_simulation ⟨⟨us, ns, 0, 0⟩, rs2⟩ N r_min r_max q).1 ∧
    (run_simulation ⟨⟨us, ns, 0, 0⟩, rs1⟩ N r_min r_max q).2.results =
      (run_simulation ⟨⟨us, ns, 0, 0⟩, rs2⟩ N r_min r_max q).2.results :=
  ⟨rfl, rfl⟩

/-- C5: every particle produced by a run has
`v_entry = sqrt(v_inf^2 + v_esc^2)` for the fixed constant
`v_esc = sqrt(2 G M_E / R_top)` with `R_top = 6.371e6 + 1.0e5`. -/
theorem C5_velocity_composition (g : Rng) (rs : List ParticleResult) (N : ℤ)
    (r_min r_max q : ℝ) (p : ParticleResult)
    (hp : p ∈ (run_simulation ⟨g, rs⟩ N r_min r_max q).1) :
    p.v_entry = Real.sqrt (p.v_inf ^ 2 + v_esc ^ 2) ∧
    v_esc = Real.sqrt (2 * G * M_E / R_top) ∧ R_top = 6.371e6 + 1.0e5 := by
  refine ⟨?_, rfl, by norm_num [R_top, R_E, h0]⟩
  exact @mem_runLoop r_min r_max q
    (fun p => p.v_entry = Real.sqrt (p.v_inf ^ 2 + v_esc ^ 2))
    (fun g' => rfl) N.toNat g p hp

/-- C5 witness: instantiated at a concrete seed state and a one-particle
run. -/
theorem C5_velocity_composition_witness :
    (simulate_particle g0 1e-7 1e-3 3).1.v_entry =
      Real.sqrt ((simulate_particle g0 1e-7 1e-3 3).1.v_inf ^ 2 + v_esc ^ 2) ∧
    v_esc = Real.sqrt (2 * G * M_E / R_top) ∧ R_top = 6.371e6 + 1.0e5 :=
  C5_velocity_composition g0 [] 1 1e-7 1e-3 3 _ (run_one_mem g0 [] 1e-7 1e-3 3)

/-- C6: every particle produced by a run satisfies
`m = (4/3) pi r^3 rho` with `rho` the density-table value of its
material, and the table holds the specified three constants. -/
theorem C6_mass_consistency (g : Rng) (rs : List ParticleResult) (N : ℤ)
    (r_min r_max q : ℝ) (p : ParticleResult)
    (hp : p ∈ (run_simulation ⟨g, rs⟩ N r_min r_max q).1) :
    p.m = 4 / 3 * Real.pi * p.r ^ 3 * p.rho ∧
    p.rho = materialDensity p.material ∧
    materialDensity .silicate = 3000 ∧ materialDensity .carbonaceous = 1500 ∧
    materialDensity .iron_nickel = 7800 := by
  refine ⟨?_, ?_, by norm_num [materialDensity], by norm_num [materialDensity],
    by norm_num [materialDensity]⟩
  · exact @mem_runLoop r_min r_max q
      (fun p => p.m = 4 / 3 * Real.pi * p.r ^ 3 * p.rho)
      (fun g' => rfl) N.toNat g p hp
  · exact @mem_runLoop r_min r_max q
      (fun p => p.rho = materialDensity p.material)
      (fun g' => rfl) N.toNat g p hp

/-- C6 witness: instantiated at a concrete seed state and a one-particle
run. -/
theorem C6_mass_consistency_witness :
    (simulate_particle g0 1e-7 1e-3 3).1.m =
      4 / 3 * Real.pi * (simulate_particle g0 1e-7 1e-3 3).1.r ^ 3 *
        (simulate_particle g0 1e-7 1e-3 3).1.rho ∧
    (simulate_particle g0 1e-7 1e-3 3).1.rho =
      materialDensity (simulate_particle g0 1e-7 1e-3 3).1.material ∧
    materialDensity .silicate = 3000 ∧ materialDensity .carbonaceous = 1500 ∧
    materialDensity .iron_nickel = 7800 :=
  C6_mass_consistency g0 [] 1 1e-7 1e-3 3 _ (run_one_mem g0 [] 1e-7 1e-3 3)

end
